import Mathlib

/-!
Verification development for the zhttp request-routing core: a shallow
embedding of the radix tree (src/zhttp/src/radix_tree.cc,
src/zhttp/include/radix_tree.h) and of the Router dispatch engine
(src/zhttp/src/router.cc, src/zhttp/include/router.h), with theorems about
route matching priority, parameter capture, middleware ordering and
error handling.
-/

namespace zhttp

/-- HTTP methods (http_common.h is not in the source drop; the spec lists the
variants in its data model section). -/
inductive HttpMethod where
  | GET | POST | PUT | DELETE | HEAD | OPTIONS | PATCH
deriving DecidableEq, Repr

/-- Radix node type, mirroring enum class NodeType (radix_tree.h). -/
inductive NodeType where
  | STATIC | PARAM | CATCH_ALL
deriving DecidableEq, Repr

/-- The underlying uint8 value of a NodeType, used for priority ordering. -/
def NodeType.code : NodeType → Nat
  | .STATIC => 0
  | .PARAM => 1
  | .CATCH_ALL => 2

/-- Overwrite-or-append write into an association list, mirroring
unordered_map operator[] assignment. -/
def assocWrite {α β : Type} [DecidableEq α] (m : List (α × β)) (k : α) (v : β) :
    List (α × β) :=
  if m.any (fun p => p.1 = k) then
    m.map (fun p => if p.1 = k then (k, v) else p)
  else
    m ++ [(k, v)]

/-- Lookup in an association list (first matching key). -/
def assocLookup {α β : Type} [DecidableEq α] (m : List (α × β)) (k : α) :
    Option β :=
  match m with
  | [] => none
  | p :: rest => if p.1 = k then some p.2 else assocLookup rest k

/-- Split a character list on the slash character, discarding empty segments;
the second argument accumulates the current segment in reverse. Mirrors the
getline loop of RadixTree::split_path. -/
def splitPathChars : List Char → List Char → List String
  | [], cur => if cur.isEmpty then [] else [String.mk cur.reverse]
  | c :: cs, cur =>
    if c = '/' then
      if cur.isEmpty then splitPathChars cs []
      else String.mk cur.reverse :: splitPathChars cs []
    else
      splitPathChars cs (c :: cur)

/-- RadixTree::split_path: split a path on slashes, dropping empty segments. -/
def splitPath (path : String) : List String :=
  splitPathChars path.data []

/-- RadixTree::parse_segment: classify a path segment and extract the
parameter name. -/
def parseSegment (seg : String) : NodeType × String :=
  match seg.data with
  | [] => (NodeType.STATIC, seg)
  | c :: _ =>
    if c = ':' then (NodeType.PARAM, String.mk (seg.data.drop 1))
    else if c = '*' then
      (NodeType.CATCH_ALL,
        if seg.data.length > 1 then String.mk (seg.data.drop 1) else "")
    else (NodeType.STATIC, seg)

/-- A radix tree node (class RadixNode, radix_tree.h): raw path fragment,
node type, parameter name, ordered child list and per-method handler map.
The handler type is a parameter H. -/
inductive RadixNode (H : Type) where
  | mk (path : String) (ntype : NodeType) (paramName : String)
       (children : List (RadixNode H)) (handlers : List (HttpMethod × H))

def RadixNode.path {H : Type} : RadixNode H → String
  | .mk p _ _ _ _ => p

def RadixNode.ntype {H : Type} : RadixNode H → NodeType
  | .mk _ t _ _ _ => t

def RadixNode.paramName {H : Type} : RadixNode H → String
  | .mk _ _ pn _ _ => pn

def RadixNode.children {H : Type} : RadixNode H → List (RadixNode H)
  | .mk _ _ _ ch _ => ch

def RadixNode.handlers {H : Type} : RadixNode H → List (HttpMethod × H)
  | .mk _ _ _ _ hs => hs

/-- Replace the child list of a node. -/
def RadixNode.withChildren {H : Type} : RadixNode H → List (RadixNode H) →
    RadixNode H
  | .mk p t pn _ hs, ch => .mk p t pn ch hs

/-- Replace the handler map of a node. -/
def RadixNode.withHandlers {H : Type} : RadixNode H → List (HttpMethod × H) →
    RadixNode H
  | .mk p t pn ch _, hs => .mk p t pn ch hs

/-- RadixNode::is_leaf: a node is a leaf iff its handler map is non-empty. -/
def RadixNode.isLeaf {H : Type} (n : RadixNode H) : Bool :=
  !n.handlers.isEmpty

/-- The predicate used to look up an existing child: find_static_child
requires type and literal equality, find_param_child and
find_catch_all_child require only the type (radix_tree.h). -/
def childPred {H : Type} (ty : NodeType) (seg : String) (c : RadixNode H) :
    Bool :=
  match ty with
  | .STATIC => decide (c.ntype = NodeType.STATIC) && decide (c.path = seg)
  | .PARAM => decide (c.ntype = NodeType.PARAM)
  | .CATCH_ALL => decide (c.ntype = NodeType.CATCH_ALL)

/-- RadixNode::find_static_child: first STATIC child with the given literal. -/
def findStaticChild {H : Type} (cs : List (RadixNode H)) (seg : String) :
    Option (RadixNode H) :=
  cs.find? (childPred NodeType.STATIC seg)

/-- RadixNode::find_param_child: first PARAM child. -/
def findParamChild {H : Type} (cs : List (RadixNode H)) :
    Option (RadixNode H) :=
  cs.find? (childPred NodeType.PARAM "")

/-- RadixNode::find_catch_all_child: first CATCH_ALL child. -/
def findCatchAllChild {H : Type} (cs : List (RadixNode H)) :
    Option (RadixNode H) :=
  cs.find? (childPred NodeType.CATCH_ALL "")

/-- RadixNode::add_child: insert at the std lower_bound position for the
priority class, that is before the first child whose class is not lower
than the new child's class. -/
def addChild {H : Type} (cs : List (RadixNode H)) (child : RadixNode H) :
    List (RadixNode H) :=
  match cs with
  | [] => [child]
  | c :: rest =>
    if c.ntype.code < child.ntype.code then c :: addChild rest child
    else child :: c :: rest

/-- Replace the first child satisfying the predicate (the C plus plus insert
mutates the found shared child in place, keeping its position). -/
def replaceChild {H : Type} (cs : List (RadixNode H))
    (p : RadixNode H → Bool) (newc : RadixNode H) : List (RadixNode H) :=
  match cs with
  | [] => []
  | c :: rest => if p c then newc :: rest else c :: replaceChild rest p newc

/-- RadixTree::insert, expressed over the segment list: walk the segments,
reusing an existing child found by childPred or creating a fresh one at the
add_child position, and write the handler at the terminal node.  The C plus
plus loop mutates the reused child in place; here the updated subtree is
built first and put back at the same position. -/
def insertSegs {H : Type} : List String → RadixNode H → HttpMethod → H →
    RadixNode H
  | [], node, m, h => node.withHandlers (assocWrite node.handlers m h)
  | seg :: rest, node, m, h =>
    let ty := (parseSegment seg).1
    let pname := (parseSegment seg).2
    match node.children.find? (childPred ty seg) with
    | some c =>
      node.withChildren
        (replaceChild node.children (childPred ty seg) (insertSegs rest c m h))
    | none =>
      let fresh : RadixNode H :=
        RadixNode.mk seg ty (if ty = NodeType.STATIC then "" else pname) [] []
      node.withChildren (addChild node.children (insertSegs rest fresh m h))

/-- RadixTree::insert on a path string. -/
def treeInsert {H : Type} (root : RadixNode H) (m : HttpMethod)
    (path : String) (h : H) : RadixNode H :=
  insertSegs (splitPath path) root m h

/-- The remaining-path string a CATCH_ALL node binds: the remaining segments
joined by slashes, built exactly like the accumulation loop in
RadixTree::match_recursive. -/
def joinRemaining (segs : List String) : String :=
  segs.foldl (fun acc s => if acc = "" then s else acc ++ "/" ++ s) ""

/-- Parameter map committed at a CATCH_ALL leaf: nothing when the parameter
name is empty. -/
def catchParams {H : Type} (ca : RadixNode H) (rem : String) :
    List (String × String) :=
  if ca.paramName = "" then [] else [(ca.paramName, rem)]

/-- RadixTree::match_recursive.  Success returns the matched node together
with the parameter bindings written on the successful unwind (the C plus
plus code writes a PARAM binding only after the recursive call returned
true, so deeper bindings are written first and an enclosing binding with
the same name overwrites them; a failing subtree writes nothing).  STATIC
children are tried first with early return, then the PARAM child, then the
CATCH_ALL child, which matches the joined remainder only when it is a
leaf. -/
def matchRec {H : Type} : List String → RadixNode H →
    Option (RadixNode H × List (String × String))
  | [], node => if node.isLeaf then some (node, []) else none
  | seg :: rest, node =>
    let caStep : Option (RadixNode H × List (String × String)) :=
      match findCatchAllChild node.children with
      | some ca =>
        if ca.isLeaf then some (ca, catchParams ca (joinRemaining (seg :: rest)))
        else none
      | none => none
    let paramStep : Option (RadixNode H × List (String × String)) :=
      match findParamChild node.children with
      | some pc =>
        match matchRec rest pc with
        | some pr2 => some (pr2.1, assocWrite pr2.2 pc.paramName seg)
        | none => caStep
      | none => caStep
    match findStaticChild node.children seg with
    | some sc =>
      match matchRec rest sc with
      | some r => some r
      | none => paramStep
    | none => paramStep

/-- RadixTree::find: split the path; the empty segment list is the root path
and matches iff the root is a leaf; otherwise run the recursive matcher. -/
def treeFind {H : Type} (root : RadixNode H) (path : String) :
    Option (RadixNode H × List (String × String)) :=
  let segs := splitPath path
  if segs.isEmpty then
    if root.isLeaf then some (root, []) else none
  else
    matchRec segs root

/-- The empty radix tree root (RadixTree constructor). -/
def emptyNode {H : Type} : RadixNode H :=
  RadixNode.mk "" NodeType.STATIC "" [] []

/-- Route entry type (RouteEntry::Type, router.h). -/
inductive REType where
  | STATIC | PARAM | REGEX
deriving DecidableEq, Repr

/-- One item of a compiled route regex as produced by
Router::build_param_regex: a literal character, or a capture group matching
one or more non-slash characters (the pattern written for a parameter). -/
inductive RItem where
  | lit (c : Char)
  | cap
deriving DecidableEq, Repr

/-- Router::build_param_regex, over the character list of the path.  The
Boolean flag says whether a parameter name is being scanned and the third
argument accumulates that name in reverse.  A colon starts a parameter
whose name extends to the next slash and compiles to a capture group; the
terminating slash and every other character compile to literals (regex
escaping of special characters keeps them literal, so escaping does not
appear in the model).  Returns the compiled items and the parameter names
in order. -/
def buildRegexChars : List Char → Bool → List Char → List RItem × List String
  | [], false, _ => ([], [])
  | [], true, acc => ([RItem.cap], [String.mk acc.reverse])
  | c :: cs, false, _ =>
    if c = ':' then buildRegexChars cs true []
    else
      let r := buildRegexChars cs false []
      (RItem.lit c :: r.1, r.2)
  | c :: cs, true, acc =>
    if c = '/' then
      let r := buildRegexChars cs false []
      (RItem.cap :: RItem.lit '/' :: r.1, String.mk acc.reverse :: r.2)
    else
      buildRegexChars cs true (c :: acc)

/-- Router::build_param_regex on a path string. -/
def buildParamRegex (path : String) : List RItem × List String :=
  buildRegexChars path.data false []

/-- Full-match semantics of std regex_match for the compiled items.  A
capture group is the pattern matching one or more non-slash characters; in
every pattern produced by build_param_regex a capture is followed by a
slash literal or by the end of the pattern (a parameter name extends to the
next slash), so the greedy backtracking match is deterministic: the capture
takes exactly the maximal run of non-slash characters.  Returns the
captured group strings in order on success. -/
def rmatch : List RItem → List Char → Option (List String)
  | [], [] => some []
  | [], _ :: _ => none
  | RItem.lit _ :: _, [] => none
  | RItem.lit c :: ps, d :: ds => if c = d then rmatch ps ds else none
  | RItem.cap :: ps, s =>
    let run := s.takeWhile (fun d => d ≠ '/')
    if run.isEmpty then none
    else
      match rmatch ps (s.drop run.length) with
      | some caps => some (String.mk run :: caps)
      | none => none

/-- Router::match_regex_route parameter commit: write
params[param_names[i]] = capture i for every index below both lengths. -/
def commitCaps (prm : List (String × String)) (names caps : List String) :
    List (String × String) :=
  (names.zip caps).foldl (fun acc p => assocWrite acc p.1 p.2) prm

/-- The request object (http_request.h is not in the source drop; the spec
gives method, path and the path-parameter mapping the router injects). -/
structure HttpRequest where
  method : HttpMethod
  path : String
  pathParams : List (String × String)

/-- Middleware interface (middleware.h is not in the source drop; the spec
gives before returning a continue flag and after as pure side effect, both
taking the request and the response state). -/
structure Middleware (ρ : Type) where
  before : HttpRequest → ρ → Bool × ρ
  after : HttpRequest → ρ → ρ

/-- A route entry (struct RouteEntry, router.h), generic in the handler type
and the middleware type so that the exception-aware dispatch below can reuse
it. -/
structure RouteEntry (η μ : Type) where
  rtype : REType
  pattern : String
  pieces : List RItem
  paramNames : List String
  handlers : List (HttpMethod × η)
  middlewares : List μ

/-- Router state (class Router, router.h): the route table, the global
middlewares, and the 404 handler. -/
structure Router (η μ : Type) where
  routes : List (RouteEntry η μ)
  middlewares : List μ
  notFoundHandler : η

/-- Router::has_param: a path is parameterized iff it contains a colon. -/
def hasParam (path : String) : Bool :=
  path.data.any (fun c => c = ':')

/-- The fresh entry Router::add_route_internal creates. -/
def mkRouteEntry {η μ : Type} (path : String) (m : HttpMethod) (h : η) :
    RouteEntry η μ :=
  { rtype := if hasParam path then REType.PARAM else REType.STATIC,
    pattern := path,
    pieces := if hasParam path then (buildParamRegex path).1 else [],
    paramNames := if hasParam path then (buildParamRegex path).2 else [],
    handlers := [(m, h)],
    middlewares := [] }

/-- The overwrite loop of Router::add_route_internal: set the handler on the
first entry with the same pattern, returning none when there is none. -/
def routesAddHandler {η μ : Type} :
    List (RouteEntry η μ) → HttpMethod → String → η →
    Option (List (RouteEntry η μ))
  | [], _, _, _ => none
  | e :: es, m, path, h =>
    if e.pattern = path then
      some ({ e with handlers := assocWrite e.handlers m h } :: es)
    else
      (routesAddHandler es m path h).map (e :: ·)

/-- Router::add_route_internal. -/
def addRouteInternal {η μ : Type} (r : Router η μ) (m : HttpMethod)
    (path : String) (h : η) : Router η μ :=
  match routesAddHandler r.routes m path h with
  | some rs => { r with routes := rs }
  | none => { r with routes := r.routes ++ [mkRouteEntry path m h] }

/-- The middleware append loop of the two-argument Router::use: push the
middleware onto the first entry with the same pattern. -/
def routesAddMw {η μ : Type} :
    List (RouteEntry η μ) → String → μ → Option (List (RouteEntry η μ))
  | [], _, _ => none
  | e :: es, path, mw =>
    if e.pattern = path then
      some ({ e with middlewares := e.middlewares ++ [mw] } :: es)
    else
      (routesAddMw es path mw).map (e :: ·)

/-- The fresh handlerless entry the two-argument Router::use creates. -/
def mkMwEntry {η μ : Type} (path : String) (mw : μ) : RouteEntry η μ :=
  { rtype := if hasParam path then REType.PARAM else REType.STATIC,
    pattern := path,
    pieces := if hasParam path then (buildParamRegex path).1 else [],
    paramNames := if hasParam path then (buildParamRegex path).2 else [],
    handlers := [],
    middlewares := [mw] }

/-- Router::use with a path: scope a middleware under a route pattern,
creating an empty entry when the pattern is new. -/
def usePath {η μ : Type} (r : Router η μ) (path : String) (mw : μ) :
    Router η μ :=
  match routesAddMw r.routes path mw with
  | some rs => { r with routes := rs }
  | none => { r with routes := r.routes ++ [mkMwEntry path mw] }

/-- Router::use without a path: append a global middleware. -/
def useGlobal {η μ : Type} (r : Router η μ) (mw : μ) : Router η μ :=
  { r with middlewares := r.middlewares ++ [mw] }

/-- The first loop of Router::find_route: scan the table in order for a
STATIC entry whose pattern equals the path and which has a handler for the
method.  This phase never touches the parameter map. -/
def findStaticPhase {η μ : Type} :
    List (RouteEntry η μ) → String → HttpMethod → Option (RouteEntry η μ)
  | [], _, _ => none
  | e :: es, path, m =>
    if e.rtype = REType.STATIC ∧ path = e.pattern ∧
        (assocLookup e.handlers m).isSome then
      some e
    else
      findStaticPhase es path m

/-- The second and third loops of Router::find_route: scan entries of the
wanted type in order; on a regex match commit the captures into the shared
parameter map, and return the entry only when it also has a handler for the
method.  Captures of an entry whose path matched but whose method did not
stay in the map. -/
def findRegexPhase {η μ : Type} (want : REType) :
    List (RouteEntry η μ) → String → HttpMethod → List (String × String) →
    Option (RouteEntry η μ) × List (String × String)
  | [], _, _, prm => (none, prm)
  | e :: es, path, m, prm =>
    if e.rtype = want then
      match rmatch e.pieces path.data with
      | some caps =>
        let prm2 := commitCaps prm e.paramNames caps
        if (assocLookup e.handlers m).isSome then (some e, prm2)
        else findRegexPhase want es path m prm2
      | none => findRegexPhase want es path m prm
    else
      findRegexPhase want es path m prm

/-- Router::find_route: static entries first, then parameterized entries,
then regex entries, with the parameter map threaded through the last two
phases. -/
def findRoute {η μ : Type} (routes : List (RouteEntry η μ)) (path : String)
    (m : HttpMethod) :
    Option (RouteEntry η μ) × List (String × String) :=
  match findStaticPhase routes path m with
  | some e => (some e, [])
  | none =>
    match findRegexPhase REType.PARAM routes path m [] with
    | (some e, prm) => (some e, prm)
    | (none, prm) => findRegexPhase REType.REGEX routes path m prm

/-- Modelled from the spec: MiddlewareChain::execute_before (the middleware
chain implementation is not in the source drop).  Iterate forward invoking
before; stop at the first middleware returning false; return the continue
flag, the list of middlewares whose before returned true in entry order,
and the final state. -/
def executeBefore {ρ : Type} :
    List (Middleware ρ) → HttpRequest → ρ → Bool × List (Middleware ρ) × ρ
  | [], _, s => (true, [], s)
  | mw :: rest, req, s =>
    let b := mw.before req s
    if b.1 then
      let r := executeBefore rest req b.2
      (r.1, mw :: r.2.1, r.2.2)
    else
      (false, [], b.2)

/-- Modelled from the spec: MiddlewareChain::execute_after (the middleware
chain implementation is not in the source drop).  Iterate backward over the
entered middlewares invoking after, so the last entered runs first. -/
def executeAfter {ρ : Type} :
    List (Middleware ρ) → HttpRequest → ρ → ρ
  | [], _, s => s
  | mw :: rest, req, s => mw.after req (executeAfter rest req s)

/-- Path-parameter injection loop at the top of Router::route: each captured
pair is written into the request through set_path_param. -/
def injectParams (req : HttpRequest) (prm : List (String × String)) :
    HttpRequest :=
  { req with
    pathParams := prm.foldl (fun acc p => assocWrite acc p.1 p.2) req.pathParams }

/-- Router::route: find the route, inject the captured parameters into the
request, build the chain from the global middlewares followed by the matched
entry's middlewares, run the before hooks, then the handler (or the 404
handler when nothing matched) unless a before hook short-circuited, then the
after hooks over the entered middlewares, and report whether an entry was
found. -/
def Router.route {ρ : Type}
    (r : Router (HttpRequest → ρ → ρ) (Middleware ρ))
    (req : HttpRequest) (s : ρ) : Bool × ρ :=
  let fr := findRoute r.routes req.path req.method
  let req2 := injectParams req fr.2
  let chain := r.middlewares ++
    (match fr.1 with
     | some e => e.middlewares
     | none => [])
  let eb := executeBefore chain req2 s
  let s2 :=
    if eb.1 then
      match fr.1 with
      | some e =>
        match assocLookup e.handlers req2.method with
        | some h => h req2 eb.2.2
        | none => eb.2.2
      | none => r.notFoundHandler req2 eb.2.2
    else
      eb.2.2
  (fr.1.isSome, executeAfter eb.2.1 req2 s2)

/-- Modelled from the spec: the response object contract (http_response.h is
not in the source drop): status code, content type, body and headers, with
chainable setters. -/
structure HttpResponse where
  statusCode : Nat
  contentTypeVal : String
  bodyVal : String
  headers : List (String × String)

/-- Response status setter. -/
def HttpResponse.status (r : HttpResponse) (c : Nat) : HttpResponse :=
  { r with statusCode := c }

/-- Response content-type setter. -/
def HttpResponse.contentType (r : HttpResponse) (ct : String) : HttpResponse :=
  { r with contentTypeVal := ct }

/-- Response body setter. -/
def HttpResponse.withBody (r : HttpResponse) (b : String) : HttpResponse :=
  { r with bodyVal := b }

/-- The default 404 handler installed by the Router constructor
(router.cc): status NOT_FOUND (404 per the spec status table), content type
text/html with utf-8 charset, and the fixed HTML body. -/
def default404 (_req : HttpRequest) (resp : HttpResponse) : HttpResponse :=
  ((resp.status 404).contentType "text/html; charset=utf-8").withBody
    "<html><body><h1>404 Not Found</h1></body></html>"

/-- A freshly constructed Router over concrete responses: empty tables and
the default 404 handler (Router::Router). -/
def mkRouter : Router (HttpRequest → HttpResponse → HttpResponse)
    (Middleware HttpResponse) :=
  { routes := [], middlewares := [], notFoundHandler := default404 }

/-- A middleware whose hooks can fail abnormally; a C plus plus exception is
modelled as the error of an Except value. -/
structure MiddlewareE (ε ρ : Type) where
  before : HttpRequest → ρ → Except ε (Bool × ρ)
  after : HttpRequest → ρ → Except ε ρ

/-- Modelled from the spec: MiddlewareChain::execute_before when hooks can
fail abnormally.  Neither the chain implementation nor Router::route
contains a catch, so a failure propagates immediately. -/
def executeBeforeE {ε ρ : Type} :
    List (MiddlewareE ε ρ) → HttpRequest → ρ →
    Except ε (Bool × List (MiddlewareE ε ρ) × ρ)
  | [], _, s => Except.ok (true, [], s)
  | mw :: rest, req, s =>
    match mw.before req s with
    | Except.error e => Except.error e
    | Except.ok b =>
      if b.1 then
        match executeBeforeE rest req b.2 with
        | Except.error e => Except.error e
        | Except.ok r => Except.ok (r.1, mw :: r.2.1, r.2.2)
      else
        Except.ok (false, [], b.2)

/-- Modelled from the spec: MiddlewareChain::execute_after when hooks can
fail abnormally; a failure propagates. -/
def executeAfterE {ε ρ : Type} :
    List (MiddlewareE ε ρ) → HttpRequest → ρ → Except ε ρ
  | [], _, s => Except.ok s
  | mw :: rest, req, s =>
    match executeAfterE rest req s with
    | Except.error e => Except.error e
    | Except.ok s2 => mw.after req s2

/-- Router::route when handlers and middlewares can fail abnormally.
Router::route contains no try or catch block, so the failure of any hook or
of the handler propagates out of the dispatch and every later step,
including the after hooks, is skipped. -/
def Router.routeExc {ε ρ : Type}
    (r : Router (HttpRequest → ρ → Except ε ρ) (MiddlewareE ε ρ))
    (req : HttpRequest) (s : ρ) : Except ε (Bool × ρ) :=
  let fr := findRoute r.routes req.path req.method
  let req2 := injectParams req fr.2
  let chain := r.middlewares ++
    (match fr.1 with
     | some e => e.middlewares
     | none => [])
  match executeBeforeE chain req2 s with
  | Except.error e => Except.error e
  | Except.ok eb =>
    let afterStep := fun s2 =>
      match executeAfterE eb.2.1 req2 s2 with
      | Except.error e => Except.error e
      | Except.ok s3 => Except.ok (fr.1.isSome, s3)
    if eb.1 then
      match fr.1 with
      | some e =>
        match assocLookup e.handlers req2.method with
        | some h =>
          match h req2 eb.2.2 with
          | Except.error err => Except.error err
          | Except.ok s2 => afterStep s2
        | none => afterStep eb.2.2
      | none =>
        match r.notFoundHandler req2 eb.2.2 with
        | Except.error err => Except.error err
        | Except.ok s2 => afterStep s2
    else
      afterStep eb.2.2

/-- An instrumented middleware over trace states: before appends its mark
and passes, after appends its mark. -/
def mkPass (name : String) : Middleware (List String) :=
  { before := fun _ t => (true, t ++ [name ++ ".before"]),
    after := fun _ t => t ++ [name ++ ".after"] }

/-- An instrumented middleware over trace states whose before appends its
mark and short-circuits. -/
def mkFail (name : String) : Middleware (List String) :=
  { before := fun _ t => (false, t ++ [name ++ ".before"]),
    after := fun _ t => t ++ [name ++ ".after"] }

/-- An instrumented handler over trace states. -/
def traceHandler : HttpRequest → List String → List String :=
  fun _ t => t ++ ["handler"]

/-- An instrumented 404 handler over trace states. -/
def traceNotFound : HttpRequest → List String → List String :=
  fun _ t => t ++ ["404"]

/-- Trace state: the list of observed hook and handler invocations. -/
abbrev TraceState := List String

/-- Router instance over trace states. -/
abbrev TRouter := Router (HttpRequest → TraceState → TraceState)
  (Middleware TraceState)

/-- The mark a passing middleware appends on entry. -/
def beforeMark (n : String) : String := n ++ ".before"

/-- The mark a middleware appends in its after hook. -/
def afterMark (n : String) : String := n ++ ".after"

/-- A trace router with empty tables. -/
def emptyTraceRouter : TRouter :=
  { routes := [], middlewares := [], notFoundHandler := traceNotFound }

/-- Fixture for the parameter-leak scenario: a POST route and a GET route
with distinct parameter names on the same path shape. -/
def leakRouter : TRouter :=
  addRouteInternal
    (addRouteInternal emptyTraceRouter HttpMethod.POST "/users/:id" traceHandler)
    HttpMethod.GET "/users/:uid" traceHandler

/-- Fixture: router with the single route of the parameter-capture example. -/
def pidRouter : TRouter :=
  addRouteInternal emptyTraceRouter HttpMethod.GET "/users/:id/posts/:pid"
    traceHandler

/-- Fixture: radix tree with the single route of the parameter-capture
example. -/
def pidTree : RadixNode Nat :=
  treeInsert emptyNode HttpMethod.GET "/users/:id/posts/:pid" 1

/-- Fixture: radix tree where the PARAM subtree fails deeper down while the
sibling CATCH_ALL succeeds. -/
def failSubtreeTree : RadixNode Nat :=
  treeInsert (treeInsert emptyNode HttpMethod.GET "/a/:y/z" 1)
    HttpMethod.GET "/a/*r" 2

/-- Fixture: two inserts whose PARAM segment carries different parameter
names. -/
def renameTree : RadixNode Nat :=
  treeInsert (treeInsert emptyNode HttpMethod.GET "/a/:x" 1)
    HttpMethod.POST "/a/:y" 2

/-- Fixture: a catch-all route below a static segment. -/
def filesTree : RadixNode Nat :=
  treeInsert emptyNode HttpMethod.GET "/files/*rest" 1

/-- Fixture: a catch-all with empty parameter name registered at the root. -/
def rootCatchTree : RadixNode Nat :=
  treeInsert emptyNode HttpMethod.GET "/*" 2

/-- Fixture: two static sibling routes inserted in alphabetical order. -/
def abTree : RadixNode Nat :=
  treeInsert (treeInsert emptyNode HttpMethod.GET "/a" 1) HttpMethod.GET "/b" 2

/-- Fixture: backtracking scenario with a PARAM route and a STATIC prefix
route diverging below. -/
def backtrackTree : RadixNode Nat :=
  treeInsert (treeInsert emptyNode HttpMethod.GET "/a/:x/c" 1)
    HttpMethod.GET "/a/b/d" 2

/-- Fixture: backtracking from a failing PARAM subtree into the CATCH_ALL
sibling. -/
def backtrackCatchTree : RadixNode Nat :=
  treeInsert (treeInsert emptyNode HttpMethod.GET "/a/:x/q" 1)
    HttpMethod.GET "/a/*r" 2

/-- Fixture for the path-scoped-middleware scenario: a PARAM route plus a
middleware scoped under the literal request path. -/
def scopedRouter : TRouter :=
  usePath (addRouteInternal emptyTraceRouter HttpMethod.GET "/a/:x" traceHandler)
    "/a/b" (mkPass "P")

/-- Request GET /a/b with no parameters. -/
def reqAB : HttpRequest :=
  { method := HttpMethod.GET, path := "/a/b", pathParams := [] }

/-- Request GET /t with no parameters. -/
def reqT : HttpRequest :=
  { method := HttpMethod.GET, path := "/t", pathParams := [] }

/-- Request GET /q with no parameters. -/
def reqQ : HttpRequest :=
  { method := HttpMethod.GET, path := "/q", pathParams := [] }

/-- Fixture: globals A and B where B short-circuits, over an empty route
table. -/
def shortRouter : TRouter :=
  useGlobal (useGlobal emptyTraceRouter (mkPass "A")) (mkFail "B")

/-- Fixture built through the registration interface: globals A and B, a
GET /t route, and C scoped under /t (which is the matched pattern, so C is
route-scoped). -/
def orderApiRouter : TRouter :=
  usePath
    (addRouteInternal
      (useGlobal (useGlobal emptyTraceRouter (mkPass "A")) (mkPass "B"))
      HttpMethod.GET "/t" traceHandler)
    "/t" (mkPass "C")

/-- A route entry fixture for the general ordering theorem: a static GET /t
route carrying the given route-scoped middlewares. -/
def orderEntry (rms : List (Middleware TraceState)) :
    RouteEntry (HttpRequest → TraceState → TraceState) (Middleware TraceState) :=
  { rtype := REType.STATIC, pattern := "/t", pieces := [], paramNames := [],
    handlers := [(HttpMethod.GET, traceHandler)], middlewares := rms }

/-- Router fixture for the general ordering theorem. -/
def orderRouter (gms rms : List (Middleware TraceState)) : TRouter :=
  { routes := [orderEntry rms], middlewares := gms,
    notFoundHandler := traceNotFound }

/-- Fixture: router with only a GET /data route, used for method
isolation. -/
def getOnlyRouter : Router (HttpRequest → HttpResponse → HttpResponse)
    (Middleware HttpResponse) :=
  addRouteInternal mkRouter HttpMethod.GET "/data"
    (fun _ r => r.status 200)

/-- Request POST /data with no parameters. -/
def reqPostData : HttpRequest :=
  { method := HttpMethod.POST, path := "/data", pathParams := [] }

/-- A blank response. -/
def resp0 : HttpResponse :=
  { statusCode := 0, contentTypeVal := "", bodyVal := "", headers := [] }

/-- An exception-capable passing trace middleware. -/
def passE (name : String) : MiddlewareE String TraceState :=
  { before := fun _ t => Except.ok (true, t ++ [beforeMark name]),
    after := fun _ t => Except.ok (t ++ [afterMark name]) }

/-- The handler that fails abnormally with the given error. -/
def throwHandler (err : String) :
    HttpRequest → TraceState → Except String TraceState :=
  fun _ _ => Except.error err

/-- Fixture: a router whose GET /x handler throws, with one global
exception-capable middleware. -/
def throwRouter :
    Router (HttpRequest → TraceState → Except String TraceState)
      (MiddlewareE String TraceState) :=
  addRouteInternal
    { routes := [], middlewares := [passE "A"],
      notFoundHandler := fun _ t => Except.ok (t ++ ["404"]) }
    HttpMethod.GET "/x" (throwHandler "boom")

/-- Request GET /x with no parameters. -/
def reqX : HttpRequest :=
  { method := HttpMethod.GET, path := "/x", pathParams := [] }

/-- Fixture: the single-route router used for the star-literal theorem. -/
def starRouter : TRouter :=
  addRouteInternal emptyTraceRouter HttpMethod.GET "/files/*rest" traceHandler

/-- Children sorted ascending by priority class code. -/
def childrenSorted {H : Type} (cs : List (RadixNode H)) : Prop :=
  List.Pairwise (fun a b => a.ntype.code ≤ b.ntype.code) cs

instance {H : Type} (cs : List (RadixNode H)) :
    Decidable (childrenSorted cs) :=
  inferInstanceAs (Decidable (List.Pairwise _ cs))

/-- Number of children of the given class. -/
def countType {H : Type} (t : NodeType) (cs : List (RadixNode H)) : Nat :=
  (cs.filter (fun c => decide (c.ntype = t))).length

/-- The structural invariant of a radix node: children sorted ascending by
class code, at most one PARAM child, at most one CATCH_ALL child, and the
same recursively below. -/
def nodeWF {H : Type} : RadixNode H → Bool
  | RadixNode.mk _ _ _ children _ =>
    decide (childrenSorted children) &&
    decide (countType NodeType.PARAM children ≤ 1) &&
    decide (countType NodeType.CATCH_ALL children ≤ 1) &&
    children.attach.all (fun c => nodeWF c.1)
termination_by n => sizeOf n
decreasing_by
  simp_wf
  have h1 := List.sizeOf_lt_of_mem c.2
  omega

/-- Apply a list of inserts to a tree, in order. -/
def applyInserts {H : Type} (l : List (HttpMethod × String × H))
    (t : RadixNode H) : RadixNode H :=
  l.foldl (fun acc i => treeInsert acc i.1 i.2.1 i.2.2) t

/-! Supporting lemmas. -/

@[simp] theorem RadixNode.path_mk {H : Type} (p t pn ch hs) :
    (RadixNode.mk (H := H) p t pn ch hs).path = p := rfl

@[simp] theorem RadixNode.ntype_mk {H : Type} (p t pn ch hs) :
    (RadixNode.mk (H := H) p t pn ch hs).ntype = t := rfl

@[simp] theorem RadixNode.paramName_mk {H : Type} (p t pn ch hs) :
    (RadixNode.mk (H := H) p t pn ch hs).paramName = pn := rfl

@[simp] theorem RadixNode.children_mk {H : Type} (p t pn ch hs) :
    (RadixNode.mk (H := H) p t pn ch hs).children = ch := rfl

@[simp] theorem RadixNode.handlers_mk {H : Type} (p t pn ch hs) :
    (RadixNode.mk (H := H) p t pn ch hs).handlers = hs := rfl

@[simp] theorem RadixNode.withChildren_ntype {H : Type} (n : RadixNode H)
    (ch) : (n.withChildren ch).ntype = n.ntype := by
  cases n; rfl

@[simp] theorem RadixNode.withChildren_path {H : Type} (n : RadixNode H)
    (ch) : (n.withChildren ch).path = n.path := by
  cases n; rfl

@[simp] theorem RadixNode.withChildren_paramName {H : Type} (n : RadixNode H)
    (ch) : (n.withChildren ch).paramName = n.paramName := by
  cases n; rfl

@[simp] theorem RadixNode.withChildren_children {H : Type} (n : RadixNode H)
    (ch) : (n.withChildren ch).children = ch := by
  cases n; rfl

@[simp] theorem RadixNode.withChildren_handlers {H : Type} (n : RadixNode H)
    (ch) : (n.withChildren ch).handlers = n.handlers := by
  cases n; rfl

@[simp] theorem RadixNode.withHandlers_ntype {H : Type} (n : RadixNode H)
    (hs) : (n.withHandlers hs).ntype = n.ntype := by
  cases n; rfl

@[simp] theorem RadixNode.withHandlers_path {H : Type} (n : RadixNode H)
    (hs) : (n.withHandlers hs).path = n.path := by
  cases n; rfl

@[simp] theorem RadixNode.withHandlers_paramName {H : Type} (n : RadixNode H)
    (hs) : (n.withHandlers hs).paramName = n.paramName := by
  cases n; rfl

@[simp] theorem RadixNode.withHandlers_children {H : Type} (n : RadixNode H)
    (hs) : (n.withHandlers hs).children = n.children := by
  cases n; rfl

@[simp] theorem RadixNode.withHandlers_handlers {H : Type} (n : RadixNode H)
    (hs) : (n.withHandlers hs).handlers = hs := by
  cases n; rfl

theorem insertSegs_ntype {H : Type} (segs : List String) (n : RadixNode H)
    (m : HttpMethod) (h : H) : (insertSegs segs n m h).ntype = n.ntype := by
  cases segs with
  | nil => simp [insertSegs]
  | cons a rest =>
    simp only [insertSegs]
    split <;> simp

theorem insertSegs_path {H : Type} (segs : List String) (n : RadixNode H)
    (m : HttpMethod) (h : H) : (insertSegs segs n m h).path = n.path := by
  cases segs with
  | nil => simp [insertSegs]
  | cons a rest =>
    simp only [insertSegs]
    split <;> simp

theorem insertSegs_paramName {H : Type} (segs : List String)
    (n : RadixNode H) (m : HttpMethod) (h : H) :
    (insertSegs segs n m h).paramName = n.paramName := by
  cases segs with
  | nil => simp [insertSegs]
  | cons a rest =>
    simp only [insertSegs]
    split <;> simp

@[simp] theorem injectParams_method (req : HttpRequest)
    (prm : List (String × String)) :
    (injectParams req prm).method = req.method := rfl

@[simp] theorem injectParams_path (req : HttpRequest)
    (prm : List (String × String)) :
    (injectParams req prm).path = req.path := rfl

theorem executeBefore_pass_append (names : List String)
    (rest : List (Middleware TraceState)) (req : HttpRequest)
    (t : TraceState) :
    executeBefore (names.map mkPass ++ rest) req t =
      ((executeBefore rest req (t ++ names.map beforeMark)).1,
       names.map mkPass ++ (executeBefore rest req (t ++ names.map beforeMark)).2.1,
       (executeBefore rest req (t ++ names.map beforeMark)).2.2) := by
  induction names generalizing t with
  | nil => simp [executeBefore]
  | cons n ns ih =>
    simp only [List.map_cons, List.cons_append, executeBefore, mkPass]
    simp only [List.append_eq]
    rw [ih]
    simp [beforeMark]

theorem executeBefore_fail (bn : String) (posts : List (Middleware TraceState))
    (req : HttpRequest) (t : TraceState) :
    executeBefore (mkFail bn :: posts) req t = (false, [], t ++ [beforeMark bn]) := by
  simp [executeBefore, mkFail, beforeMark]

theorem executeAfter_pass (names : List String) (req : HttpRequest)
    (s : TraceState) :
    executeAfter (names.map mkPass) req s = s ++ (names.map afterMark).reverse := by
  induction names generalizing s with
  | nil => simp [executeAfter]
  | cons n ns ih =>
    simp [executeAfter, mkPass, ih, afterMark, List.append_assoc]

theorem executeAfter_append {ρ : Type} (xs ys : List (Middleware ρ))
    (req : HttpRequest) (s : ρ) :
    executeAfter (xs ++ ys) req s = executeAfter xs req (executeAfter ys req s) := by
  induction xs with
  | nil => simp [executeAfter]
  | cons mw rest ih => simp [executeAfter, ih]

theorem matchRec_single_static {H : Type} (a : String) (rest : List String)
    (p0 : String) (t0 : NodeType) (pn0 : String)
    (hs0 : List (HttpMethod × H)) (K : RadixNode H)
    (hK1 : K.ntype = NodeType.STATIC) (hK2 : K.path = a) :
    matchRec (a :: rest) (RadixNode.mk p0 t0 pn0 [K] hs0) = matchRec rest K := by
  simp only [matchRec, RadixNode.children_mk, findStaticChild, findParamChild,
    findCatchAllChild, List.find?, childPred, hK1, hK2]
  cases hm : matchRec rest K <;> simp [hm]

theorem insertSegs_step_existing {H : Type} (a : String) (rest : List String)
    (p0 : String) (t0 : NodeType) (pn0 : String)
    (hs0 : List (HttpMethod × H)) (K : RadixNode H)
    (hK1 : K.ntype = NodeType.STATIC) (hK2 : K.path = a)
    (ha : parseSegment a = (NodeType.STATIC, a)) (m : HttpMethod) (h : H) :
    insertSegs (a :: rest) (RadixNode.mk p0 t0 pn0 [K] hs0) m h =
      RadixNode.mk p0 t0 pn0 [insertSegs rest K m h] hs0 := by
  simp [insertSegs, ha, List.find?, childPred, hK1, hK2, replaceChild,
    RadixNode.withChildren]

theorem insertSegs_step_new {H : Type} (a : String) (rest : List String)
    (p0 : String) (t0 : NodeType) (pn0 : String)
    (ha : parseSegment a = (NodeType.STATIC, a)) (m : HttpMethod) (h : H) :
    insertSegs (a :: rest) (RadixNode.mk p0 t0 pn0 [] []) m h =
      RadixNode.mk p0 t0 pn0
        [insertSegs rest (RadixNode.mk a NodeType.STATIC "" [] []) m h] [] := by
  simp [insertSegs, ha, List.find?, addChild, RadixNode.withChildren]

theorem C1aux {H : Type} (s pseg cseg px pr : String) (m : HttpMethod)
    (h1 h2 h3 : H)
    (hs : parseSegment s = (NodeType.STATIC, s))
    (hp : parseSegment pseg = (NodeType.PARAM, px))
    (hc : parseSegment cseg = (NodeType.CATCH_ALL, pr)) :
    ∀ (ps : List String), (∀ a ∈ ps, parseSegment a = (NodeType.STATIC, a)) →
    ∀ (p0 : String) (t0 : NodeType) (pn0 : String),
      ((matchRec (ps ++ [s])
          (insertSegs (ps ++ [cseg])
            (insertSegs (ps ++ [pseg])
              (insertSegs (ps ++ [s]) (RadixNode.mk p0 t0 pn0 [] []) m h1)
              m h2) m h3)).map
        (fun r => (r.1.ntype, assocLookup r.1.handlers m, r.2)) =
        some (NodeType.STATIC, some h1, []))
      ∧ ((matchRec (ps ++ [s])
          (insertSegs (ps ++ [cseg])
            (insertSegs (ps ++ [pseg]) (RadixNode.mk p0 t0 pn0 [] []) m h2)
            m h3)).map
        (fun r => (r.1.ntype, assocLookup r.1.handlers m, r.2)) =
        some (NodeType.PARAM, some h2, [(px, s)]))
      ∧ ((matchRec (ps ++ [s])
          (insertSegs (ps ++ [cseg]) (RadixNode.mk p0 t0 pn0 [] []) m h3)).map
        (fun r => (r.1.ntype, assocLookup r.1.handlers m)) =
        some (NodeType.CATCH_ALL, some h3)) := by
  intro ps
  induction ps with
  | nil =>
    intro _ p0 t0 pn0
    refine ⟨?_, ?_, ?_⟩
    · have ha1 : insertSegs [s] (RadixNode.mk p0 t0 pn0 [] []) m h1 =
          RadixNode.mk p0 t0 pn0
            [RadixNode.mk s NodeType.STATIC "" [] [(m, h1)]] [] := by
        simp [insertSegs, hs, List.find?, addChild, RadixNode.withChildren,
          RadixNode.withHandlers, assocWrite]
      have ha2 : insertSegs [pseg]
          (RadixNode.mk p0 t0 pn0
            [RadixNode.mk s NodeType.STATIC "" [] [(m, h1)]] []) m h2 =
          RadixNode.mk p0 t0 pn0
            [RadixNode.mk s NodeType.STATIC "" [] [(m, h1)],
             RadixNode.mk pseg NodeType.PARAM px [] [(m, h2)]] [] := by
        simp [insertSegs, hp, List.find?, childPred, addChild, NodeType.code,
          RadixNode.withChildren, RadixNode.withHandlers, assocWrite]
      have ha3 : insertSegs [cseg]
          (RadixNode.mk p0 t0 pn0
            [RadixNode.mk s NodeType.STATIC "" [] [(m, h1)],
             RadixNode.mk pseg NodeType.PARAM px [] [(m, h2)]] []) m h3 =
          RadixNode.mk p0 t0 pn0
            [RadixNode.mk s NodeType.STATIC "" [] [(m, h1)],
             RadixNode.mk pseg NodeType.PARAM px [] [(m, h2)],
             RadixNode.mk cseg NodeType.CATCH_ALL pr [] [(m, h3)]] [] := by
        simp [insertSegs, hc, List.find?, childPred, addChild, NodeType.code,
          RadixNode.withChildren, RadixNode.withHandlers, assocWrite]
      simp only [List.nil_append, ha1, ha2, ha3]
      simp [matchRec, findStaticChild, findParamChild, findCatchAllChild,
        childPred, List.find?, RadixNode.isLeaf, assocLookup]
    · have hb1 : insertSegs [pseg] (RadixNode.mk p0 t0 pn0 [] []) m h2 =
          RadixNode.mk p0 t0 pn0
            [RadixNode.mk pseg NodeType.PARAM px [] [(m, h2)]] [] := by
        simp [insertSegs, hp, List.find?, addChild, RadixNode.withChildren,
          RadixNode.withHandlers, assocWrite]
      have hb2 : insertSegs [cseg]
          (RadixNode.mk p0 t0 pn0
            [RadixNode.mk pseg NodeType.PARAM px [] [(m, h2)]] []) m h3 =
          RadixNode.mk p0 t0 pn0
            [RadixNode.mk pseg NodeType.PARAM px [] [(m, h2)],
             RadixNode.mk cseg NodeType.CATCH_ALL pr [] [(m, h3)]] [] := by
        simp [insertSegs, hc, List.find?, childPred, addChild, NodeType.code,
          RadixNode.withChildren, RadixNode.withHandlers, assocWrite]
      simp only [List.nil_append, hb1, hb2]
      simp [matchRec, findStaticChild, findParamChild, findCatchAllChild,
        childPred, List.find?, RadixNode.isLeaf, assocLookup, assocWrite]
    · have hc1 : insertSegs [cseg] (RadixNode.mk p0 t0 pn0 [] []) m h3 =
          RadixNode.mk p0 t0 pn0
            [RadixNode.mk cseg NodeType.CATCH_ALL pr [] [(m, h3)]] [] := by
        simp [insertSegs, hc, List.find?, addChild, RadixNode.withChildren,
          RadixNode.withHandlers, assocWrite]
      simp only [List.nil_append, hc1]
      simp [matchRec, findStaticChild, findParamChild, findCatchAllChild,
        childPred, List.find?, RadixNode.isLeaf, assocLookup]
  | cons a ps2 ih =>
    intro hall p0 t0 pn0
    have ha : parseSegment a = (NodeType.STATIC, a) :=
      hall a (List.mem_cons_self a ps2)
    have hall2 : ∀ x ∈ ps2, parseSegment x = (NodeType.STATIC, x) :=
      fun x hx => hall x (List.mem_cons_of_mem a hx)
    obtain ⟨ih1, ih2, ih3⟩ := ih hall2 a NodeType.STATIC ""
    refine ⟨?_, ?_, ?_⟩
    · rw [show (a :: ps2) ++ [s] = a :: (ps2 ++ [s]) from rfl,
        show (a :: ps2) ++ [pseg] = a :: (ps2 ++ [pseg]) from rfl,
        show (a :: ps2) ++ [cseg] = a :: (ps2 ++ [cseg]) from rfl]
      rw [insertSegs_step_new a (ps2 ++ [s]) p0 t0 pn0 ha m h1]
      rw [insertSegs_step_existing a (ps2 ++ [pseg]) p0 t0 pn0 _ _
        (by simp [insertSegs_ntype]) (by simp [insertSegs_path]) ha m h2]
      rw [insertSegs_step_existing a (ps2 ++ [cseg]) p0 t0 pn0 _ _
        (by simp [insertSegs_ntype]) (by simp [insertSegs_path]) ha m h3]
      rw [matchRec_single_static a (ps2 ++ [s]) p0 t0 pn0 _ _
        (by simp [insertSegs_ntype]) (by simp [insertSegs_path])]
      exact ih1
    · rw [show (a :: ps2) ++ [s] = a :: (ps2 ++ [s]) from rfl,
        show (a :: ps2) ++ [pseg] = a :: (ps2 ++ [pseg]) from rfl,
        show (a :: ps2) ++ [cseg] = a :: (ps2 ++ [cseg]) from rfl]
      rw [insertSegs_step_new a (ps2 ++ [pseg]) p0 t0 pn0 ha m h2]
      rw [insertSegs_step_existing a (ps2 ++ [cseg]) p0 t0 pn0 _ _
        (by simp [insertSegs_ntype]) (by simp [insertSegs_path]) ha m h3]
      rw [matchRec_single_static a (ps2 ++ [s]) p0 t0 pn0 _ _
        (by simp [insertSegs_ntype]) (by simp [insertSegs_path])]
      exact ih2
    · rw [show (a :: ps2) ++ [s] = a :: (ps2 ++ [s]) from rfl,
        show (a :: ps2) ++ [cseg] = a :: (ps2 ++ [cseg]) from rfl]
      rw [insertSegs_step_new a (ps2 ++ [cseg]) p0 t0 pn0 ha m h3]
      rw [matchRec_single_static a (ps2 ++ [s]) p0 t0 pn0 _ _
        (by simp [insertSegs_ntype]) (by simp [insertSegs_path])]
      exact ih3

theorem countType_cons {H : Type} (t : NodeType) (d : RadixNode H)
    (l : List (RadixNode H)) :
    countType t (d :: l) = countType t l + (if d.ntype = t then 1 else 0) := by
  by_cases hd : d.ntype = t
  · simp [countType, List.filter_cons, hd]
  · simp [countType, List.filter_cons, hd]

theorem mem_addChild {H : Type} {cs : List (RadixNode H)}
    {c y : RadixNode H} : y ∈ addChild cs c ↔ y = c ∨ y ∈ cs := by
  induction cs with
  | nil => simp [addChild]
  | cons d rest ih =>
    simp only [addChild]
    split
    all_goals simp only [List.mem_cons, ih]
    all_goals tauto

theorem childrenSorted_addChild {H : Type} {cs : List (RadixNode H)}
    {c : RadixNode H} (h : childrenSorted cs) :
    childrenSorted (addChild cs c) := by
  induction cs with
  | nil => simp [addChild, childrenSorted]
  | cons d rest ih =>
    obtain ⟨hd, hrest⟩ := List.pairwise_cons.mp h
    simp only [addChild]
    split
    · rename_i hlt
      rw [childrenSorted, List.pairwise_cons]
      refine ⟨?_, ih hrest⟩
      intro y hy
      rcases mem_addChild.mp hy with rfl | hy2
      · exact Nat.le_of_lt hlt
      · exact hd y hy2
    · rename_i hge
      rw [childrenSorted, List.pairwise_cons]
      refine ⟨?_, h⟩
      intro y hy
      rcases List.mem_cons.mp hy with rfl | hy2
      · exact Nat.le_of_not_lt hge
      · exact Nat.le_trans (Nat.le_of_not_lt hge) (hd y hy2)

theorem countType_addChild {H : Type} (t : NodeType) (cs : List (RadixNode H))
    (c : RadixNode H) :
    countType t (addChild cs c) =
      countType t cs + (if c.ntype = t then 1 else 0) := by
  induction cs with
  | nil =>
    simp only [addChild]
    rw [countType_cons]
  | cons d rest ih =>
    simp only [addChild]
    split
    · rw [countType_cons, ih, countType_cons]
      omega
    · rw [countType_cons, countType_cons]

theorem countType_eq_zero_of_none {H : Type} (cs : List (RadixNode H))
    (t : NodeType) (seg : String) (ht : t ≠ NodeType.STATIC)
    (hfind : cs.find? (childPred t seg) = none) : countType t cs = 0 := by
  have hall := List.find?_eq_none.mp hfind
  simp only [countType, List.length_eq_zero, List.filter_eq_nil_iff]
  intro a ha
  have h2 := hall a ha
  cases t with
  | STATIC => exact absurd rfl ht
  | PARAM =>
    simp only [childPred, Bool.not_eq_true, decide_eq_false_iff_not] at h2
    simp [h2]
  | CATCH_ALL =>
    simp only [childPred, Bool.not_eq_true, decide_eq_false_iff_not] at h2
    simp [h2]

theorem mem_replaceChild {H : Type} {cs : List (RadixNode H)}
    {p : RadixNode H → Bool} {x y : RadixNode H}
    (hy : y ∈ replaceChild cs p x) : y = x ∨ y ∈ cs := by
  induction cs with
  | nil => simp [replaceChild] at hy
  | cons d rest ih =>
    simp only [replaceChild] at hy
    split at hy
    · rcases List.mem_cons.mp hy with rfl | h2
      · exact Or.inl rfl
      · exact Or.inr (List.mem_cons_of_mem d h2)
    · rcases List.mem_cons.mp hy with rfl | h2
      · exact Or.inr (List.mem_cons_self _ _)
      · rcases ih h2 with h3 | h3
        · exact Or.inl h3
        · exact Or.inr (List.mem_cons_of_mem d h3)

theorem childrenSorted_replaceChild {H : Type} {cs : List (RadixNode H)}
    {p : RadixNode H → Bool} {c x : RadixNode H}
    (hfind : cs.find? p = some c) (hcode : x.ntype.code = c.ntype.code)
    (h : childrenSorted cs) : childrenSorted (replaceChild cs p x) := by
  induction cs with
  | nil => simp [List.find?] at hfind
  | cons d rest ih =>
    obtain ⟨hd, hrest⟩ := List.pairwise_cons.mp h
    rw [List.find?_cons] at hfind
    simp only [replaceChild]
    split
    · rename_i hp
      rw [hp] at hfind
      injection hfind with hdc
      subst hdc
      rw [childrenSorted, List.pairwise_cons]
      refine ⟨?_, hrest⟩
      intro y hy
      rw [hcode]
      exact hd y hy
    · rename_i hp
      rw [Bool.of_not_eq_true hp] at hfind
      rw [childrenSorted, List.pairwise_cons]
      refine ⟨?_, ih hfind hrest⟩
      intro y hy
      rcases mem_replaceChild hy with rfl | hy2
      · rw [hcode]
        exact hd c (List.mem_of_find?_eq_some hfind)
      · exact hd y hy2

theorem countType_replaceChild {H : Type} (t : NodeType)
    {cs : List (RadixNode H)} {p : RadixNode H → Bool} {c x : RadixNode H}
    (hfind : cs.find? p = some c) (hty : x.ntype = c.ntype) :
    countType t (replaceChild cs p x) = countType t cs := by
  induction cs with
  | nil => simp [List.find?] at hfind
  | cons d rest ih =>
    rw [List.find?_cons] at hfind
    simp only [replaceChild]
    split
    · rename_i hp
      rw [hp] at hfind
      injection hfind with hdc
      subst hdc
      rw [countType_cons, countType_cons, hty]
    · rename_i hp
      rw [Bool.of_not_eq_true hp] at hfind
      rw [countType_cons, countType_cons, ih hfind]

theorem nodeWF_iff {H : Type} (p : String) (t : NodeType) (pn : String)
    (ch : List (RadixNode H)) (hs : List (HttpMethod × H)) :
    nodeWF (RadixNode.mk p t pn ch hs) = true ↔
      (childrenSorted ch ∧ countType NodeType.PARAM ch ≤ 1 ∧
       countType NodeType.CATCH_ALL ch ≤ 1 ∧
       ∀ c ∈ ch, nodeWF c = true) := by
  rw [nodeWF]
  simp only [Bool.and_eq_true, decide_eq_true_eq, List.all_eq_true,
    List.mem_attach, Subtype.forall, true_implies]
  tauto

theorem insertSegs_WF {H : Type} :
    ∀ (segs : List String) (n : RadixNode H) (m : HttpMethod) (h : H),
      nodeWF n = true → nodeWF (insertSegs segs n m h) = true := by
  intro segs
  induction segs with
  | nil =>
    intro n m h hn
    cases n with
    | mk p t pn ch hs =>
      rw [insertSegs, RadixNode.withHandlers]
      rw [nodeWF_iff] at hn ⊢
      exact hn
  | cons seg rest ih =>
    intro n m h hn
    cases n with
    | mk p t pn ch hs =>
      rw [nodeWF_iff] at hn
      obtain ⟨hsort, hcp, hcc, hch⟩ := hn
      rw [insertSegs]
      cases hfind : List.find? (childPred (parseSegment seg).1 seg) ch with
      | some c =>
        simp only [RadixNode.children_mk, hfind, RadixNode.withChildren]
        have hcmem : c ∈ ch := List.mem_of_find?_eq_some hfind
        have hcwf : nodeWF (insertSegs rest c m h) = true := ih c m h (hch c hcmem)
        have hty : (insertSegs rest c m h).ntype = c.ntype :=
          insertSegs_ntype rest c m h
        rw [nodeWF_iff]
        refine ⟨childrenSorted_replaceChild hfind (by rw [hty]) hsort,
          ?_, ?_, ?_⟩
        · rw [countType_replaceChild NodeType.PARAM hfind hty]
          exact hcp
        · rw [countType_replaceChild NodeType.CATCH_ALL hfind hty]
          exact hcc
        · intro y hy
          rcases mem_replaceChild hy with rfl | hy2
          · exact hcwf
          · exact hch y hy2
      | none =>
        simp only [RadixNode.children_mk, hfind, RadixNode.withChildren]
        have hfwf : nodeWF (RadixNode.mk (H := H) seg (parseSegment seg).1
            (if (parseSegment seg).1 = NodeType.STATIC then ""
             else (parseSegment seg).2) [] []) = true := by
          rw [nodeWF_iff]
          simp [childrenSorted, countType, List.filter]
        have hcwf := ih _ m h hfwf
        have hty : (insertSegs rest (RadixNode.mk (H := H) seg (parseSegment seg).1
            (if (parseSegment seg).1 = NodeType.STATIC then ""
             else (parseSegment seg).2) [] []) m h).ntype =
            (parseSegment seg).1 := by
          rw [insertSegs_ntype]
          simp
        rw [nodeWF_iff]
        refine ⟨childrenSorted_addChild hsort, ?_, ?_, ?_⟩
        · rw [countType_addChild, hty]
          by_cases hP : (parseSegment seg).1 = NodeType.PARAM
          · rw [if_pos hP]
            have h0 : countType NodeType.PARAM ch = 0 := by
              apply countType_eq_zero_of_none ch NodeType.PARAM seg (by simp)
              rw [← hP]
              exact hfind
            omega
          · rw [if_neg hP]
            omega
        · rw [countType_addChild, hty]
          by_cases hC : (parseSegment seg).1 = NodeType.CATCH_ALL
          · rw [if_pos hC]
            have h0 : countType NodeType.CATCH_ALL ch = 0 := by
              apply countType_eq_zero_of_none ch NodeType.CATCH_ALL seg (by simp)
              rw [← hC]
              exact hfind
            omega
          · rw [if_neg hC]
            omega
        · intro y hy
          rcases mem_addChild.mp hy with rfl | hy2
          · exact hcwf
          · exact hch y hy2

theorem emptyNode_WF {H : Type} : nodeWF (emptyNode (H := H)) = true := by
  rw [emptyNode, nodeWF_iff]
  simp [childrenSorted, countType, List.filter]

/-! Claim theorems. -/

/-- C1: radix-tree matching resolves in strict priority order with
backtracking.  General part: for any common static prefix, a request that
could match a STATIC, a PARAM and a CATCH_ALL route registered on that
prefix resolves to the STATIC route when all three are present, to the
PARAM route once the STATIC route is absent, and to the CATCH_ALL route
once the PARAM route is absent.  Concrete parts: with routes /a/:x/c and
/a/b/d the request /a/b/c backtracks out of the failing STATIC descent into
the PARAM child (binding x = b), and with routes /a/:x/q and /a/*r the
request /a/b/c backtracks out of the failing PARAM descent into the
CATCH_ALL child. -/
theorem C1_priority_backtracking :
    (∀ {H : Type} (ps : List String) (s pseg cseg px pr : String)
       (m : HttpMethod) (h1 h2 h3 : H) (P1 P2 P3 R : String),
       (∀ a ∈ ps, parseSegment a = (NodeType.STATIC, a)) →
       parseSegment s = (NodeType.STATIC, s) →
       parseSegment pseg = (NodeType.PARAM, px) →
       parseSegment cseg = (NodeType.CATCH_ALL, pr) →
       splitPath P1 = ps ++ [s] → splitPath P2 = ps ++ [pseg] →
       splitPath P3 = ps ++ [cseg] → splitPath R = ps ++ [s] →
       ((treeFind (treeInsert (treeInsert (treeInsert emptyNode m P1 h1)
             m P2 h2) m P3 h3) R).map
           (fun r => (r.1.ntype, assocLookup r.1.handlers m, r.2)) =
         some (NodeType.STATIC, some h1, []))
       ∧ ((treeFind (treeInsert (treeInsert emptyNode m P2 h2) m P3 h3) R).map
           (fun r => (r.1.ntype, assocLookup r.1.handlers m, r.2)) =
         some (NodeType.PARAM, some h2, [(px, s)]))
       ∧ ((treeFind (treeInsert emptyNode m P3 h3) R).map
           (fun r => (r.1.ntype, assocLookup r.1.handlers m)) =
         some (NodeType.CATCH_ALL, some h3)))
    ∧ ((treeFind backtrackTree "/a/b/c").map
        (fun r => (r.2, assocLookup r.1.handlers HttpMethod.GET)) =
        some ([("x", "b")], some 1))
    ∧ ((treeFind backtrackTree "/a/b/d").map
        (fun r => (r.2, assocLookup r.1.handlers HttpMethod.GET)) =
        some ([], some 2))
    ∧ ((treeFind backtrackCatchTree "/a/b/c").map
        (fun r => (r.2, assocLookup r.1.handlers HttpMethod.GET)) =
        some ([("r", "b/c")], some 2)) := by
  refine ⟨?_, rfl, rfl, rfl⟩
  intro H ps s pseg cseg px pr m h1 h2 h3 P1 P2 P3 R hall hs hp hc hs1 hs2 hs3 hsR
  have hne : (ps ++ [s]).isEmpty = false := by simp
  simp only [treeFind, treeInsert, emptyNode, hs1, hs2, hs3, hsR, hne,
    Bool.false_eq_true, if_false]
  exact C1aux s pseg cseg px pr m h1 h2 h3 hs hp hc ps hall "" NodeType.STATIC ""

/-- C1 witness: the general priority statement applied to the prefix /api
with segment v, parameter route /api/:x and catch-all route /api/*r. -/
theorem C1_priority_witness :
    ((treeFind (treeInsert (treeInsert (treeInsert emptyNode HttpMethod.GET
          "/api/v" 1) HttpMethod.GET "/api/:x" 2) HttpMethod.GET "/api/*r" 3)
        "/api/v").map
      (fun r => (r.1.ntype, assocLookup r.1.handlers HttpMethod.GET, r.2)) =
      some (NodeType.STATIC, some 1, []))
    ∧ ((treeFind (treeInsert (treeInsert emptyNode HttpMethod.GET "/api/:x" 2)
          HttpMethod.GET "/api/*r" 3) "/api/v").map
      (fun r => (r.1.ntype, assocLookup r.1.handlers HttpMethod.GET, r.2)) =
      some (NodeType.PARAM, some 2, [("x", "v")]))
    ∧ ((treeFind (treeInsert emptyNode HttpMethod.GET "/api/*r" 3)
        "/api/v").map
      (fun r => (r.1.ntype, assocLookup r.1.handlers HttpMethod.GET)) =
      some (NodeType.CATCH_ALL, some 3)) :=
  C1_priority_backtracking.1 ["api"] "v" ":x" "*r" "x" "r" HttpMethod.GET
    1 2 3 "/api/v" "/api/:x" "/api/*r" "/api/v" (by decide) (by decide)
    (by decide) (by decide) (by decide) (by decide) (by decide) (by decide)

/-- C4 counterexample: the claim says a failing match attempt contributes no
bindings to the returned map, but Router::find_route commits the captures of
a PARAM entry before checking the method table, so the POST-only entry
/users/:id leaks the binding id = 42 into the map returned for a GET that is
finally matched by /users/:uid. -/
theorem C4_param_leak_counterexample :
    (findRoute leakRouter.routes "/users/42" HttpMethod.GET).1.map
        (fun e => e.pattern) = some "/users/:uid" ∧
    (findRoute leakRouter.routes "/users/42" HttpMethod.GET).2 =
      [("id", "42"), ("uid", "42")] :=
  ⟨rfl, rfl⟩

/-- C4 amended: the radix tree commits exactly the bindings of the matched
route (deepest write first) and a failing subtree leaks nothing, as in the
tree where the PARAM subtree /a/:y/z fails on /a/b/c and only the CATCH_ALL
binding survives; in Router::find_route the successfully matched lone route
/users/:id/posts/:pid binds exactly id and pid, but entries whose pattern
matched the path without a handler for the method do leak their bindings
into the returned map. -/
theorem C4_param_capture :
    (treeFind pidTree "/users/42/posts/7").map (fun r => r.2) =
      some [("pid", "7"), ("id", "42")] ∧
    (treeFind failSubtreeTree "/a/b/c").map (fun r => r.2) =
      some [("r", "b/c")] ∧
    (findRoute pidRouter.routes "/users/42/posts/7" HttpMethod.GET).2 =
      [("id", "42"), ("pid", "7")] ∧
    (findRoute pidRouter.routes "/users/42/posts/7" HttpMethod.GET).1.map
      (fun e => e.pattern) = some "/users/:id/posts/:pid" :=
  ⟨rfl, rfl, rfl, rfl⟩

/-- C6 counterexample: the claim says the parameter name of a reused PARAM
child is overwritten by the later insert, but RadixTree::insert only sets
the name when it creates the node, so after inserting /a/:x and then /a/:y
a find binds the segment under x, not y. -/
theorem C6_param_name_counterexample :
    (treeFind renameTree "/a/v").map (fun r => (r.1.paramName, r.2)) =
      some ("x", [("x", "v")]) ∧
    (treeFind renameTree "/a/v").map (fun r => assocLookup r.2 "y") =
      some none :=
  ⟨rfl, rfl⟩

/-- C6 amended: an existing PARAM child is matched by class alone and
reused, but its parameter name is kept, so the first writer wins: after
insert(GET, /a/:x, 1) and insert(POST, /a/:y, 2) the shared node carries
both handlers, its parameter name stays x, and a find binds the segment
under x. -/
theorem C6_first_writer_wins :
    (treeFind renameTree "/a/v").map
        (fun r => (r.1.paramName, r.2, r.1.handlers)) =
      some ("x", [("x", "v")], [(HttpMethod.GET, 1), (HttpMethod.POST, 2)]) :=
  rfl

/-- C7 counterexample: the claim says /files/ matches /files/*rest with an
empty remainder when the catch-all node is a leaf, and that a root
catch-all with empty name matches every path including the root path; but
match_recursive only reaches a CATCH_ALL child while at least one segment
remains, so /files/ is not found even though the catch-all node is a leaf
(witnessed by /files/a matching that leaf), and the root path is not found
in the root catch-all tree. -/
theorem C7_empty_remainder_counterexample :
    (treeFind filesTree "/files/a").map (fun r => (r.1.isLeaf, r.2)) =
      some (true, [("rest", "a")]) ∧
    treeFind filesTree "/files/" = none ∧
    treeFind rootCatchTree "/" = none :=
  ⟨rfl, rfl, rfl⟩

/-- C9 counterexample: the claim says children of the same class appear in
insertion order, but add_child inserts at the std lower_bound position,
which is before every existing child of the same class, so inserting /a and
then /b leaves the root children in the order b, a. -/
theorem C9_insertion_order_counterexample :
    abTree.children.map RadixNode.path = ["b", "a"] ∧
    ¬ abTree.children.map RadixNode.path = ["a", "b"] :=
  ⟨rfl, by decide⟩

/-- C9 amended: after any sequence of inserts every node's child list is
sorted ascending by priority class and has at most one PARAM and at most
one CATCH_ALL child; but children of the same class appear in REVERSE
insertion order, because add_child inserts at the lower_bound position,
before every existing child of the same class (inserting /a then /b leaves
the root children as b, a). -/
theorem C9_child_invariant :
    (∀ (H : Type) (inserts : List (HttpMethod × String × H)),
      nodeWF (applyInserts inserts emptyNode) = true)
    ∧ abTree.children.map RadixNode.path = ["b", "a"] := by
  constructor
  · intro H inserts
    suffices h : ∀ (t : RadixNode H), nodeWF t = true →
        nodeWF (applyInserts inserts t) = true from h emptyNode emptyNode_WF
    induction inserts with
    | nil => exact fun t ht => ht
    | cons i rest ih =>
      intro t ht
      exact ih _ (insertSegs_WF _ _ _ _ ht)
  · rfl

/-- C3 counterexample: the claim says the chain contains the path-scoped
middlewares registered under the exact request path, but Router::route only
adds the matched entry's middlewares; here the request /a/b is matched by
the PARAM entry /a/:x, and the middleware P scoped under the literal /a/b
(a handlerless entry that find_route skips) never runs: the trace contains
only the handler. -/
theorem C3_path_scoped_counterexample :
    Router.route scopedRouter reqAB [] = (true, ["handler"]) ∧
    ((Router.route scopedRouter reqAB []).2.contains "P.before") = false :=
  ⟨rfl, rfl⟩

/-- C7 amended: a catch-all binds the joined remainder when at least one
segment remains (/files/a/b/c binds rest = a/b/c), but it never matches an
empty remainder: /files/ is not found even though the catch-all node is a
leaf, and a root catch-all with empty parameter name matches every path
with at least one nonempty segment while the root path itself stays
unmatched. -/
theorem C7_catch_all_remainder :
    (treeFind filesTree "/files/a/b/c").map (fun r => r.2) =
      some [("rest", "a/b/c")] ∧
    treeFind filesTree "/files/" = none ∧
    treeFind rootCatchTree "/" = none ∧
    ∀ p : String, splitPath p ≠ [] →
      (treeFind rootCatchTree p).isSome = true := by
  refine ⟨rfl, rfl, rfl, ?_⟩
  intro p hp
  have hroot : rootCatchTree =
      RadixNode.mk "" NodeType.STATIC ""
        [RadixNode.mk "*" NodeType.CATCH_ALL "" [] [(HttpMethod.GET, 2)]]
        [] := rfl
  rw [hroot]
  unfold treeFind
  cases hsegs : splitPath p with
  | nil => exact absurd hsegs hp
  | cons s rest =>
    simp [matchRec, findStaticChild, findParamChild, findCatchAllChild,
      childPred, List.find?, RadixNode.isLeaf, catchParams]

/-- C7 witness for the quantified part: the root catch-all tree matches the
concrete path /x. -/
theorem C7_catch_all_witness :
    (treeFind rootCatchTree "/x").isSome = true :=
  C7_catch_all_remainder.2.2.2 "/x" (by decide)

/-- C2: when a before hook returns false, later before hooks, the handler
and the 404 handler are all skipped (the result does not depend on the
middlewares after the failing one, on the route table, or on the 404
handler), and the after hooks of the middlewares entered before the abort
run in reverse order; in particular with globals A and B where B fails the
observed order is exactly A.before, B.before, A.after. -/
theorem C2_short_circuit :
    (∀ (pres : List String) (bn : String)
       (posts : List (Middleware TraceState))
       (routes : List (RouteEntry (HttpRequest → TraceState → TraceState)
         (Middleware TraceState)))
       (nf : HttpRequest → TraceState → TraceState) (req : HttpRequest)
       (t0 : TraceState),
       (Router.route
           { routes := routes,
             middlewares := pres.map mkPass ++ mkFail bn :: posts,
             notFoundHandler := nf } req t0).2 =
         t0 ++ pres.map beforeMark ++ [beforeMark bn] ++
           (pres.map afterMark).reverse)
    ∧ Router.route shortRouter reqQ [] =
        (false, ["A.before", "B.before", "A.after"]) := by
  constructor
  · intro pres bn posts routes nf req t0
    simp only [Router.route]
    rw [List.append_assoc, List.cons_append]
    rw [executeBefore_pass_append, executeBefore_fail]
    simp [executeAfter_pass]
  · rfl

/-- C3 amended: the chain is the global middlewares in insertion order
followed by the matched entry's middlewares (path-scoped middlewares
registered under the literal request path are included only when that entry
is the matched one); before hooks run left-to-right, then the handler, then
after hooks right-to-left, as in the A, B, C example built through the
registration interface. -/
theorem C3_chain_order :
    (∀ (gnames rnames : List String) (t0 : TraceState),
       Router.route (orderRouter (gnames.map mkPass) (rnames.map mkPass))
           reqT t0 =
         (true, t0 ++ (gnames ++ rnames).map beforeMark ++ ["handler"] ++
           ((gnames ++ rnames).map afterMark).reverse))
    ∧ Router.route orderApiRouter reqT [] =
        (true, ["A.before", "B.before", "C.before", "handler",
                "C.after", "B.after", "A.after"]) := by
  constructor
  · intro gnames rnames t0
    have hfr : findRoute (orderRouter (gnames.map mkPass) (rnames.map mkPass)).routes
        reqT.path reqT.method = (some (orderEntry (rnames.map mkPass)), []) := rfl
    simp only [Router.route, hfr]
    simp only [orderRouter, orderEntry]
    rw [show (List.map mkPass gnames ++ List.map mkPass rnames : List (Middleware TraceState))
        = (gnames ++ rnames).map mkPass from (List.map_append mkPass gnames rnames).symm]
    rw [show ((gnames ++ rnames).map mkPass : List (Middleware TraceState))
        = (gnames ++ rnames).map mkPass ++ [] from (List.append_nil _).symm]
    rw [executeBefore_pass_append]
    simp [executeBefore, executeAfter_append, executeAfter_pass, traceHandler,
      reqT, assocLookup, List.append_assoc]
  · rfl

/-- C5: when no entry has a handler for the request method at a matching
path, find_route yields nothing and dispatch returns false for any
middleware configuration; with no middlewares the default 404 handler then
stamps status 404, the text/html content type and the fixed body onto the
response; a route registered only for GET does not satisfy a POST to the
same path. -/
theorem C5_not_found_dispatch :
    (∀ (ρ : Type) (r : Router (HttpRequest → ρ → ρ) (Middleware ρ))
       (req : HttpRequest) (s : ρ),
       (findRoute r.routes req.path req.method).1 = none →
       (Router.route r req s).1 = false)
    ∧ (∀ (routes : List (RouteEntry (HttpRequest → HttpResponse → HttpResponse)
         (Middleware HttpResponse))) (req : HttpRequest) (resp : HttpResponse),
       (findRoute routes req.path req.method).1 = none →
       Router.route { routes := routes,
                      middlewares := [],
                      notFoundHandler := default404 } req resp =
         (false, ((resp.status 404).contentType
           "text/html; charset=utf-8").withBody
           "<html><body><h1>404 Not Found</h1></body></html>"))
    ∧ (findRoute getOnlyRouter.routes "/data" HttpMethod.POST).1 = none
    ∧ Router.route getOnlyRouter reqPostData resp0 =
        (false, ((resp0.status 404).contentType
          "text/html; charset=utf-8").withBody
          "<html><body><h1>404 Not Found</h1></body></html>") := by
  refine ⟨?_, ?_, rfl, rfl⟩
  · intro ρ r req s h
    simp only [Router.route, h]
    rfl
  · intro routes req resp h
    simp only [Router.route, h]
    simp [executeBefore, executeAfter, default404]

/-- C5 witness: the hypothesis-bearing parts applied to the GET-only /data
router and a POST /data request. -/
theorem C5_not_found_witness :
    (Router.route getOnlyRouter reqPostData resp0).1 = false ∧
    Router.route { routes := getOnlyRouter.routes,
                   middlewares := [],
                   notFoundHandler := default404 } reqPostData resp0 =
      (false, ((resp0.status 404).contentType
        "text/html; charset=utf-8").withBody
        "<html><body><h1>404 Not Found</h1></body></html>") :=
  ⟨C5_not_found_dispatch.1 HttpResponse getOnlyRouter reqPostData resp0 rfl,
   C5_not_found_dispatch.2.1 getOnlyRouter.routes reqPostData resp0 rfl⟩

/-- C8 counterexample: the claim says the router catches an abnormal
handler failure, converts it to a 500 response and still runs the after
hooks; but Router::route has no catch, so the failure of the GET /x handler
propagates out of dispatch as is, no response is produced, and the after
hook of the entered middleware A never runs. -/
theorem C8_exception_counterexample :
    Router.routeExc throwRouter reqX [] = Except.error "boom" :=
  rfl

/-- C8 amended: when the matched handler fails abnormally after the before
hooks all passed, the failure propagates out of Router::route unchanged: no
500 conversion takes place and the after hooks of the entered middlewares
are skipped. -/
theorem C8_exception_propagates {ρ ε : Type}
    (r : Router (HttpRequest → ρ → Except ε ρ) (MiddlewareE ε ρ))
    (req : HttpRequest) (s s1 : ρ)
    (en : RouteEntry (HttpRequest → ρ → Except ε ρ) (MiddlewareE ε ρ))
    (hnd : HttpRequest → ρ → Except ε ρ) (ent : List (MiddlewareE ε ρ))
    (err : ε)
    (hfind : (findRoute r.routes req.path req.method).1 = some en)
    (hhnd : assocLookup en.handlers req.method = some hnd)
    (hbef : executeBeforeE (r.middlewares ++ en.middlewares)
        (injectParams req (findRoute r.routes req.path req.method).2) s =
        Except.ok (true, ent, s1))
    (hthrow : hnd (injectParams req (findRoute r.routes req.path req.method).2)
        s1 = Except.error err) :
    Router.routeExc r req s = Except.error err := by
  simp only [Router.routeExc, hfind, injectParams_method]
  rw [hbef]
  simp [hhnd, hthrow]

/-- C8 witness: the amended theorem applied to the concrete throwing
router. -/
theorem C8_exception_witness :
    Router.routeExc throwRouter reqX [] = Except.error "boom" :=
  C8_exception_propagates throwRouter reqX [] ["A.before"]
    (mkRouteEntry "/x" HttpMethod.GET (throwHandler "boom"))
    (throwHandler "boom") [passE "A"] "boom" rfl rfl rfl rfl

/-- C10: the Router that performs dispatch classifies a registered path as
parameterized iff it contains a colon; a path containing a star but no
colon is stored as a STATIC entry, and such a route is found exactly for a
request path equal to the literal pattern with the registered method, so
catch-all syntax has no effect on dispatch through the Router. -/
theorem C10_star_literal_static :
    ∀ (p : String), '*' ∈ p.data → ':' ∉ p.data →
    ∀ (m : HttpMethod) (hnd : HttpRequest → TraceState → TraceState),
      hasParam p = false ∧
      (addRouteInternal emptyTraceRouter m p hnd).routes =
        [mkRouteEntry p m hnd] ∧
      (mkRouteEntry (η := HttpRequest → TraceState → TraceState)
        (μ := Middleware TraceState) p m hnd).rtype = REType.STATIC ∧
      ∀ (q : String) (m2 : HttpMethod),
        ((findRoute (addRouteInternal emptyTraceRouter m p hnd).routes q m2).1.isSome)
          = (decide (q = p) && decide (m = m2)) := by
  intro p _hstar hcolon m hnd
  have hhp : hasParam p = false := by
    simp only [hasParam, List.any_eq_false, decide_eq_true_eq]
    intro c hc
    exact fun he => hcolon (he ▸ hc)
  have hroutes : (addRouteInternal emptyTraceRouter m p hnd).routes =
      [mkRouteEntry p m hnd] := by
    simp [addRouteInternal, emptyTraceRouter, routesAddHandler]
  refine ⟨hhp, hroutes, by simp [mkRouteEntry, hhp], ?_⟩
  intro q m2
  rw [hroutes]
  by_cases hq : q = p
  · subst hq
    by_cases hm : m = m2
    · subst hm
      simp [findRoute, findStaticPhase, findRegexPhase, mkRouteEntry, hhp,
        assocLookup]
    · simp [findRoute, findStaticPhase, findRegexPhase, mkRouteEntry, hhp,
        assocLookup, hm]
  · simp [findRoute, findStaticPhase, findRegexPhase, mkRouteEntry, hhp,
      assocLookup, hq, Ne.symm hq]

/-- C10 witness: the star route matches its literal pattern and not a path
the catch-all syntax would otherwise capture. -/
theorem C10_star_literal_witness :
    (findRoute starRouter.routes "/files/abc" HttpMethod.GET).1.isSome = false := by
  obtain ⟨h1, h2, h3, h4⟩ := C10_star_literal_static "/files/*rest"
    (by decide) (by decide) HttpMethod.GET traceHandler
  have h := h4 "/files/abc" HttpMethod.GET
  simpa [starRouter, emptyTraceRouter] using h

end zhttp
